import Mathlib

/-!
Verification development for the SpotifyAPIClient repository
(src/spotifyapiclient.py).  The Python class is shallowly embedded:

* Network responses are modelled as already-parsed row records (the JSON
  boundary is external to the repository).  A pagination loop consumes the
  sequence of pages the server returns to its successive requests; each page
  carries the server-reported `total` that the loop reads from every
  response.
* The pandas DataFrames are modelled as lists of row structures; the pandas
  operations used by the code (boolean-mask filtering, `isin`, `duplicated`,
  `drop_duplicates`, slicing of `.values`) are translated to list functions
  with the same left-to-right semantics.
* The interactive and file boundaries (input prompts, the ledger CSV) are
  explicit parameters and explicit result fields.
-/

namespace Spotify

/-- Row of the followed-artists table built in `get_followed_artists`
(lines 121-128 of the source): name, id, and the genre list joined into one
delimited string. -/
structure ArtistRow where
  artist : String
  artist_id : String
  genres : String
deriving DecidableEq

/-- Row of the playlists table built in `get_current_user_playlists`
(lines 184-190). -/
structure PlaylistRow where
  playlist_id : String
  playlist_name : String
deriving DecidableEq

/-- Row of the albums table built in `get_artists_albums` (lines 336-346). -/
structure AlbumRow where
  artist_id : String
  album_name : String
  album_id : String
  album_group : String
  album_release_date : String
  album_is_playable : Bool
deriving DecidableEq

/-- Row of the album-track tables built in `get_albums_tracks`
(lines 379-393) and `get_several_albums_tracks` (lines 431-445).
`track_artist_ids` and `track_artist_names` are the artist lists joined
with the `|` separator, exactly as the source builds them. -/
structure TrackRow where
  album_id : String
  track_name : String
  track_id : String
  track_uri : String
  track_artist_ids : String
  track_artist_names : String
  disc_number : Nat
  track_number : Nat
  track_is_playable : Bool
  track_length : Nat
deriving DecidableEq

/-- Row of the playlist-items table built in `get_playlist_items`
(lines 260-273). -/
structure PlaylistTrackRow where
  playlist_id : String
  track_id : String
  track_name : String
  track_uri : String
  artist_ids : String
  artist_names : String
  album_name : String
  album_uri : String
  added_at : String
deriving DecidableEq

/-- Row of the reviewed-tracks ledger CSV (columns `track_id`, `album_id`),
read at line 463 and rewritten at line 503. -/
structure LedgerRow where
  track_id : String
  album_id : String
deriving DecidableEq

/-- One server response to a page request: the parsed items plus the
`total` field that the source reads from every response
(`response.json()['total']`, or `['artists']['total']` for the cursor
endpoint). -/
structure Page (ρ : Type) where
  items : List ρ
  total : Nat
deriving DecidableEq

/-- Offset-style pagination loop shared by `get_current_user_playlists`
(lines 181-196), `get_playlist_items` (lines 256-278),
`get_artists_albums` (lines 332-351) and `get_albums_tracks`
(lines 375-398): request a page, append its items, stop when the
accumulated length equals the response's reported total, otherwise advance
`offset` by 50 and request again.  The argument list is the sequence of
responses the server returns to the successive requests; `none` means the
loop consumed every provided response and issued yet another request (the
source keeps looping).  The returned `Nat` counts the requests issued. -/
def runPagesOffset {ρ : Type} : List (Page ρ) → List ρ → Nat → Option (List ρ × Nat)
  | [], _, _ => none
  | p :: ps, acc, reqs =>
    let acc2 := acc ++ p.items
    if acc2.length = p.total then some (acc2, reqs + 1)
    else runPagesOffset ps acc2 (reqs + 1)

/-- Result of the cursor-style loop of `get_followed_artists`:
`done` on success, `indexError` when the source would evaluate
`data[-1]['artist_id']` on an empty page (line 133), `outOfPages` when the
loop consumed every provided response and issued another request. -/
inductive CursorResult (ρ : Type) where
  | done (rows : List ρ) (reqs : Nat)
  | indexError (reqs : Nat)
  | outOfPages (reqs : Nat)
deriving DecidableEq

/-- Cursor-style pagination loop of `get_followed_artists`
(lines 118-134): append each page's items, stop when the accumulated
length equals the reported total, otherwise set the `after` cursor to the
last row's artist id (crashing with an IndexError when the page is empty)
and request again.  The cursor value only parameterises the next request,
so the computation is a function of the response sequence. -/
def runPagesCursor : List (Page ArtistRow) → List ArtistRow → Nat → CursorResult ArtistRow
  | [], _, reqs => .outOfPages reqs
  | p :: ps, acc, reqs =>
    let acc2 := acc ++ p.items
    if acc2.length = p.total then .done acc2 (reqs + 1)
    else
      match p.items.getLast? with
      | none => .indexError (reqs + 1)
      | some _ => runPagesCursor ps acc2 (reqs + 1)

/-- The `get_followed_artists` operation as a function of the server's
response sequence. -/
def get_followed_artists (pages : List (Page ArtistRow)) : CursorResult ArtistRow :=
  runPagesCursor pages [] 0

/-- The `get_current_user_playlists` operation as a function of the
server's response sequence. -/
def get_current_user_playlists (pages : List (Page PlaylistRow)) :
    Option (List PlaylistRow × Nat) :=
  runPagesOffset pages [] 0

/-- The `get_playlist_items` operation as a function of the server's
response sequence. -/
def get_playlist_items (pages : List (Page PlaylistTrackRow)) :
    Option (List PlaylistTrackRow × Nat) :=
  runPagesOffset pages [] 0

/-- The `get_artists_albums` operation as a function of the server's
response sequence. -/
def get_artists_albums (pages : List (Page AlbumRow)) :
    Option (List AlbumRow × Nat) :=
  runPagesOffset pages [] 0

/-- The `get_albums_tracks` operation as a function of the server's
response sequence. -/
def get_albums_tracks (pages : List (Page TrackRow)) :
    Option (List TrackRow × Nat) :=
  runPagesOffset pages [] 0

/-- Split a list into successive chunks of 50, the page size every
paginated endpoint of the source requests (`limit: 50`). -/
def chunk50 {ρ : Type} : List ρ → List (List ρ)
  | [] => []
  | x :: xs => ((x :: xs).take 50) :: chunk50 ((x :: xs).drop 50)
termination_by l => l.length
decreasing_by simp [List.length_drop]; omega

/-- Response sequence of a consistent server holding `items`: the pages
are the successive 50-chunks and every response reports
`total = items.length`. -/
def consistentPages {ρ : Type} (items : List ρ) : List (Page ρ) :=
  (chunk50 items).map (fun c => { items := c, total := items.length })

/-- Left-to-right scan underlying pandas `duplicated`/`drop_duplicates`
with `keep='first'` (lines 485 and 502 of the source): an element is kept
exactly when its key has not been seen on any earlier row. -/
def dedupScan {α κ : Type} (key : α → κ) [DecidableEq κ] : List κ → List α → List α
  | _, [] => []
  | seen, x :: xs =>
    if key x ∈ seen then dedupScan key seen xs
    else x :: dedupScan key (key x :: seen) xs

/-- Embedding of `df.loc[~df.duplicated(subset = cols)]`: keep the rows
whose key column tuple has not occurred earlier. -/
def dropDuplicatesBy {α κ : Type} (key : α → κ) [DecidableEq κ] (l : List α) : List α :=
  dedupScan key [] l

/-- The dedup key of line 485:
`subset = ['track_name','track_artist_ids','track_length']`. -/
def trackKey (t : TrackRow) : String × String × Nat :=
  (t.track_name, t.track_artist_ids, t.track_length)

/-- Modelled from the spec: deduplication keeps, for each composite key,
exactly the first occurrence encountered and discards every later element
with the same key.  Stated as the spec words it, for comparison with the
source's `dropDuplicatesBy`. -/
def dedupFirstSpec {α κ : Type} (key : α → κ) [DecidableEq κ] : List α → List α
  | [] => []
  | x :: xs => x :: dedupFirstSpec key (xs.filter (fun y => decide (key y ≠ key x)))
termination_by l => l.length
decreasing_by simp; exact Nat.lt_succ_of_le (List.length_filter_le _ _)

/-- Character-list version of Python's `startswith` used to define the
substring test. -/
def startsWithList : List Char → List Char → Bool
  | [], _ => true
  | _ :: _, [] => false
  | a :: as, b :: bs => a == b && startsWithList as bs

/-- Contiguous-substring test on character lists. -/
def substrOf (n : List Char) : List Char → Bool
  | [] => n.isEmpty
  | c :: t => startsWithList n (c :: t) || substrOf n t

/-- Python's `needle in hay` on strings: contiguous substring
containment (the test the source applies at line 481). -/
def strIn (needle hay : String) : Bool :=
  substrOf needle.data hay.data

/-- One entry of a track's `artists` array in the raw API response. -/
structure ArtistRef where
  id : String
  name : String
deriving DecidableEq

/-- The `track_artist_ids` string built at lines 385 and 437:
`'|'.join([artist['id'] for artist in track['artists']])`. -/
def joinedArtistIds (artists : List ArtistRef) : String :=
  String.intercalate "|" (artists.map ArtistRef.id)

/-- Line 471: `albums.loc[~albums['album_id'].isin(reviewed['album_id'])]`,
the albums whose id is not in the ledger's album-id column. -/
def filteredAlbums (ledger : List LedgerRow) (albumsServed : List AlbumRow) : List AlbumRow :=
  albumsServed.filter (fun a => decide (a.album_id ∉ ledger.map LedgerRow.album_id))

/-- Lines 475-476: the loop runs `album_count // 20 + 1` times where
`album_count` is the PRE-filter album count (line 467), and slices the
POST-filter album-id column `values[20*i : 20*(i+1)]` for each batch. -/
def albumBatches (ledger : List LedgerRow) (albumsServed : List AlbumRow) : List (List String) :=
  (List.range (albumsServed.length / 20 + 1)).map
    (fun i => (((filteredAlbums ledger albumsServed).map AlbumRow.album_id).drop (20 * i)).take 20)

/-- Line 481: `tracks.loc[tracks['track_artist_ids'].apply(lambda x: artist_id in x)]`
-- a Python substring test on the joined artist-id string. -/
def relevantTracks (artist_id : String) (tracks : List TrackRow) : List TrackRow :=
  tracks.filter (fun t => strIn artist_id t.track_artist_ids)

/-- Line 482: `tracks.loc[~tracks['track_id'].isin(reviewed['track_id'])]`. -/
def unreviewedTracks (ledger : List LedgerRow) (tracks : List TrackRow) : List TrackRow :=
  tracks.filter (fun t => decide (t.track_id ∉ ledger.map LedgerRow.track_id))

/-- The step-5 filters of `review_artist_discography` (lines 480-482):
artist relevance, then not-already-reviewed. -/
def filteredTracks (artist_id : String) (ledger : List LedgerRow)
    (tracks : List TrackRow) : List TrackRow :=
  unreviewedTracks ledger (relevantTracks artist_id tracks)

/-- Lines 495-496: the upload loop runs `track_count // 100 + 1` times and
slices `values[100*i : 100*(i+1)]` of the track-uri column. -/
def uploadBatches (uris : List String) : List (List String) :=
  (List.range (uris.length / 100 + 1)).map (fun i => (uris.drop (100 * i)).take 100)

/-- Embedding of `drop_duplicates` on the two-column ledger frame
(line 502): whole-row (that is, (track_id, album_id) pair) dedup keeping
the first occurrence. -/
def dropDuplicatesRows (l : List LedgerRow) : List LedgerRow :=
  dedupScan (fun r => r) [] l

/-- Line 502: `pd.concat([reviewed, tracks[['track_id','album_id']]]).drop_duplicates()`
-- note `tracks` here is the step-5 filtered frame, BEFORE the line-485
dedup. -/
def updatedLedger (ledger : List LedgerRow) (tracks : List TrackRow) : List LedgerRow :=
  dropDuplicatesRows
    (ledger ++ tracks.map (fun t => { track_id := t.track_id, album_id := t.album_id }))

/-- Line 462: select the rows whose `playlist_name` equals
`'Pending Review'` exactly and take `.values[0]`, the first such row's id;
the selection is empty when no playlist matches (the source then raises
on the `[0]` index). -/
def resolvePendingReview (playlists : List PlaylistRow) : Option String :=
  ((playlists.filter (fun p => decide (p.playlist_name = "Pending Review"))).head?).map
    PlaylistRow.playlist_id

/-- Failure of the workflow.  `configError` models the uncaught IndexError
the source raises at line 462 (`.values[0]` on an empty selection) when no
playlist is named exactly `Pending Review` -- the failure mode the spec's
error taxonomy names `ConfigError`. -/
inductive Err where
  | configError
deriving DecidableEq

/-- Observable side effects of one `review_artist_discography` run:
the album-id batches passed to `get_several_albums_tracks` (line 477),
the uri batches passed to `add_items_to_playlist` (line 497), the ledger
written back to the CSV (line 503) if any, and the artist passed to
`follow_artist` (line 507) if any. -/
structure Effects where
  severalTracksCalls : List (List String)
  uploads : List (List String)
  ledgerWrite : Option (List LedgerRow)
  followed : Option String
deriving DecidableEq

/-- The `review_artist_discography` workflow (lines 449-509) as a function
of its inputs: the current user's playlists, the ledger CSV contents, the
albums the server returns for the artist, an oracle giving the tracks
`get_several_albums_tracks` returns for each album-id batch (the source
serialises the batch as a comma-joined string), and the confirmation
prompt's input.  When the prompt input differs from `Y` the source
returns early (line 490) with no uploads, no ledger write and no follow. -/
def review_artist_discography (artist_id : String) (playlists : List PlaylistRow)
    (ledger : List LedgerRow) (albumsServed : List AlbumRow)
    (severalTracks : List String → List TrackRow) (confirm : String) :
    Except Err Effects :=
  match resolvePendingReview playlists with
  | none => .error .configError
  | some _ =>
    let batches := albumBatches ledger albumsServed
    let tracksAll := (batches.map severalTracks).flatten
    let tracks2 := filteredTracks artist_id ledger tracksAll
    let deduped := dropDuplicatesBy trackKey tracks2
    if confirm = "Y" then
      .ok { severalTracksCalls := batches
          , uploads := uploadBatches (deduped.map TrackRow.track_uri)
          , ledgerWrite := some (updatedLedger ledger tracks2)
          , followed := some artist_id }
    else
      .ok { severalTracksCalls := batches, uploads := [], ledgerWrite := none
          , followed := none }

/-- In-memory credential state of the client (`self.access_token`,
`self.expiration_time`, `self.refresh_token`). -/
structure ClientState where
  access_token : String
  expiration_time : Int
  refresh_token : String
deriving DecidableEq

/-- A network request observable in an operation's trace: the token
refresh POST issued by `get_access_token`, or an API request carrying the
bearer token the client currently stores. -/
inductive Request where
  | refresh
  | api (token : String)
deriving DecidableEq

/-- The `check_access_token` decorator (lines 70-79): when
`expiration_time - now <= 600` it calls `self.get_access_token()` --
which issues the refresh POST and RETURNS the new pair -- but discards
the returned value, so the wrapped function runs on the unchanged client
state.  (`get_access_token`, lines 48-68, has no side effect on `self`;
the assignment to `self.access_token` happens only in `__init__`.) -/
def check_access_token (body : ClientState → List Request) (st : ClientState)
    (now : Int) : List Request :=
  if st.expiration_time - now ≤ 600 then Request.refresh :: body st
  else body st

/-- Request trace of `get_user_id` (lines 81-95): the decorator guard,
then one GET carrying the stored access token. -/
def get_user_id_trace (st : ClientState) (now : Int) : List Request :=
  check_access_token (fun s => [Request.api s.access_token]) st now

/-- Number of requests a cursor pagination run issued. -/
def cursorReqs {ρ : Type} : CursorResult ρ → Nat
  | .done _ r => r
  | .indexError r => r
  | .outOfPages r => r

/-- Request trace of `get_followed_artists` (lines 97-135): the decorator
guard, then the function body REPEATS the staleness check inline
(lines 103-104, again discarding the result), then one GET per page, each
carrying the stored access token. -/
def get_followed_artists_trace (st : ClientState) (now : Int)
    (pages : List (Page ArtistRow)) : List Request :=
  check_access_token
    (fun s =>
      (if s.expiration_time - now ≤ 600 then [Request.refresh] else [])
        ++ List.replicate (cursorReqs (runPagesCursor pages [] 0)) (Request.api s.access_token))
    st now

/-- Concrete artist list of a track used to exhibit the substring
over-match of the relevance filter: the wanted id `b1` is a proper
substring of the listed artist id `ab1`. -/
def rawArtistsOverlap : List ArtistRef :=
  [{ id := "ab1", name := "X" }, { id := "c", name := "Y" }]

/-- Concrete track whose joined artist-id string `ab1|c` contains `b1`
as a substring although no contributing artist has id `b1`. -/
def trackOverlap : TrackRow :=
  { album_id := "al", track_name := "n", track_id := "t", track_uri := "u"
  , track_artist_ids := joinedArtistIds rawArtistsOverlap
  , track_artist_names := "X|Y", disc_number := 1, track_number := 1
  , track_is_playable := true, track_length := 100 }

/-- Concrete discography of 25 albums with ids `al0` .. `al24`. -/
def albums25 : List AlbumRow :=
  (List.range 25).map (fun i =>
    { artist_id := "A", album_name := "", album_id := "al" ++ toString i
    , album_group := "album", album_release_date := "", album_is_playable := true })

/-- Concrete ledger already containing the first 5 of the 25 album ids. -/
def ledger5 : List LedgerRow :=
  (List.range 5).map (fun i => { track_id := "t", album_id := "al" ++ toString i })

/-- Concrete single-album discography serving 250 tracks. -/
def album1 : List AlbumRow :=
  [{ artist_id := "A", album_name := "", album_id := "al0"
   , album_group := "album", album_release_date := "", album_is_playable := true }]

/-- Concrete three-track list of spec section 8: two tracks share the
duration 180 but differ in name, one differs in both; all three keys are
pairwise distinct. -/
def specTracks3 : List TrackRow :=
  [TrackRow.mk "al" "Song A" "t1" "u1" "x" "X" 1 1 true 180,
   TrackRow.mk "al" "Song A (Remaster)" "t2" "u2" "x" "X" 1 2 true 180,
   TrackRow.mk "al" "Song B" "t3" "u3" "x" "X" 1 3 true 200]

/-- Concrete list of 250 tracks by artist `A`, pairwise distinct in
duration so that the line-485 dedup keeps all of them. -/
def tracks250 : List TrackRow :=
  (List.range 250).map (fun i =>
    { album_id := "al0", track_name := "x", track_id := "t", track_uri := "u"
    , track_artist_ids := "A", track_artist_names := "An", disc_number := 1
    , track_number := 1, track_is_playable := true, track_length := i })

end Spotify

namespace Spotify

theorem dedupScan_subset {α κ : Type} (key : α → κ) [DecidableEq κ] :
    ∀ (seen : List κ) (l : List α) (x : α), x ∈ dedupScan key seen l → x ∈ l := by
  intro seen l
  induction l generalizing seen with
  | nil => simp [dedupScan]
  | cons a xs ih =>
    intro x hx
    by_cases h : key a ∈ seen
    · rw [dedupScan, if_pos h] at hx
      exact List.mem_cons_of_mem _ (ih seen x hx)
    · rw [dedupScan, if_neg h] at hx
      rcases List.mem_cons.mp hx with h1 | h1
      · simp [h1]
      · exact List.mem_cons_of_mem _ (ih _ x h1)

theorem dedupScan_key_not_seen {α κ : Type} (key : α → κ) [DecidableEq κ] :
    ∀ (seen : List κ) (l : List α) (x : α), x ∈ dedupScan key seen l → key x ∉ seen := by
  intro seen l
  induction l generalizing seen with
  | nil => simp [dedupScan]
  | cons a xs ih =>
    intro x hx
    by_cases h : key a ∈ seen
    · rw [dedupScan, if_pos h] at hx
      exact ih seen x hx
    · rw [dedupScan, if_neg h] at hx
      rcases List.mem_cons.mp hx with h1 | h1
      · subst h1; exact h
      · intro hc
        exact ih (key a :: seen) x h1 (List.mem_cons_of_mem _ hc)

theorem dedupScan_map_key_nodup {α κ : Type} (key : α → κ) [DecidableEq κ] :
    ∀ (seen : List κ) (l : List α), ((dedupScan key seen l).map key).Nodup := by
  intro seen l
  induction l generalizing seen with
  | nil => simp [dedupScan]
  | cons a xs ih =>
    by_cases h : key a ∈ seen
    · rw [dedupScan, if_pos h]
      exact ih seen
    · rw [dedupScan, if_neg h]
      simp only [List.map_cons, List.nodup_cons]
      refine ⟨?_, ih (key a :: seen)⟩
      intro hmem
      rcases List.mem_map.mp hmem with ⟨y, hy, hkey⟩
      exact dedupScan_key_not_seen key _ _ y hy (hkey ▸ List.mem_cons_self _ _)

theorem dedupScan_id_mem {α : Type} [DecidableEq α] :
    ∀ (seen : List α) (l : List α) (x : α),
      x ∈ dedupScan (fun a => a) seen l ↔ x ∈ l ∧ x ∉ seen := by
  intro seen l
  induction l generalizing seen with
  | nil => simp [dedupScan]
  | cons a xs ih =>
    intro x
    by_cases h : a ∈ seen
    · rw [dedupScan, if_pos h]
      constructor
      · intro hx
        have h2 := (ih seen x).mp hx
        exact ⟨List.mem_cons_of_mem _ h2.1, h2.2⟩
      · rintro ⟨hmem, hns⟩
        rcases List.mem_cons.mp hmem with h1 | h1
        · exact absurd (h1 ▸ h) hns
        · exact (ih seen x).mpr ⟨h1, hns⟩
    · rw [dedupScan, if_neg h]
      constructor
      · intro hx
        rcases List.mem_cons.mp hx with h1 | h1
        · subst h1; exact ⟨List.mem_cons_self _ _, h⟩
        · have h2 := (ih (a :: seen) x).mp h1
          exact ⟨List.mem_cons_of_mem _ h2.1,
            fun hc => h2.2 (List.mem_cons_of_mem _ hc)⟩
      · rintro ⟨hmem, hns⟩
        rcases List.mem_cons.mp hmem with h1 | h1
        · subst h1; exact List.mem_cons_self _ _
        · by_cases hxa : x = a
          · subst hxa; exact List.mem_cons_self _ _
          · refine List.mem_cons_of_mem _ ((ih (a :: seen) x).mpr ⟨h1, ?_⟩)
            intro hc
            rcases List.mem_cons.mp hc with h2 | h2
            · exact hxa h2
            · exact hns h2

theorem dedupScan_eq_spec {α κ : Type} (key : α → κ) [DecidableEq κ] :
    ∀ (l : List α) (seen : List κ),
      dedupScan key seen l
        = dedupFirstSpec key (l.filter (fun y => decide (key y ∉ seen))) := by
  intro l
  induction l with
  | nil => simp [dedupScan, dedupFirstSpec]
  | cons a xs ih =>
    intro seen
    by_cases h : key a ∈ seen
    · rw [dedupScan, if_pos h]
      have hfil : (a :: xs).filter (fun y => decide (key y ∉ seen))
          = xs.filter (fun y => decide (key y ∉ seen)) := by
        simp [List.filter_cons, h]
      rw [hfil]
      exact ih seen
    · rw [dedupScan, if_neg h]
      have hfil : (a :: xs).filter (fun y => decide (key y ∉ seen))
          = a :: xs.filter (fun y => decide (key y ∉ seen)) := by
        simp [List.filter_cons, h]
      rw [hfil, dedupFirstSpec]
      congr 1
      rw [ih (key a :: seen), List.filter_filter]
      congr 1
      apply List.filter_congr
      intro y _
      simp [List.mem_cons, not_or, and_comm]

theorem dropDuplicatesBy_eq_spec {α κ : Type} (key : α → κ) [DecidableEq κ] (l : List α) :
    dropDuplicatesBy key l = dedupFirstSpec key l := by
  rw [dropDuplicatesBy, dedupScan_eq_spec]
  congr 1
  simp

theorem dedupFirstSpec_of_nodup {α κ : Type} (key : α → κ) [DecidableEq κ] :
    ∀ (n : Nat) (l : List α), l.length ≤ n → (l.map key).Nodup → dedupFirstSpec key l = l := by
  intro n
  induction n with
  | zero =>
    intro l hlen _
    have : l = [] := List.length_eq_zero.mp (Nat.le_zero.mp hlen)
    subst this
    simp [dedupFirstSpec]
  | succ n ih =>
    intro l hlen hnd
    match l with
    | [] => simp [dedupFirstSpec]
    | a :: xs =>
      simp only [List.map_cons, List.nodup_cons] at hnd
      have hfil : xs.filter (fun y => decide (key y ≠ key a)) = xs := by
        apply List.filter_eq_self.mpr
        intro y hy
        simp only [decide_eq_true_eq]
        intro hc
        exact hnd.1 (List.mem_map.mpr ⟨y, hy, hc⟩)
      rw [dedupFirstSpec, hfil, ih xs (by simp at hlen; omega) hnd.2]

theorem dropDuplicatesBy_of_nodup {α κ : Type} (key : α → κ) [DecidableEq κ]
    (l : List α) (h : (l.map key).Nodup) : dropDuplicatesBy key l = l := by
  rw [dropDuplicatesBy_eq_spec]
  exact dedupFirstSpec_of_nodup key l.length l (Nat.le_refl _) h

end Spotify

namespace Spotify

theorem runPagesOffset_replicate_empty {ρ : Type} (total : Nat) :
    ∀ (n : Nat) (acc : List ρ) (reqs : Nat), acc.length ≠ total →
      runPagesOffset (List.replicate n { items := [], total := total }) acc reqs = none := by
  intro n
  induction n with
  | zero => intro acc reqs _; rfl
  | succ n ih =>
    intro acc reqs h
    rw [List.replicate_succ, runPagesOffset]
    simp only [List.append_nil]
    rw [if_neg h]
    exact ih acc (reqs + 1) h

theorem runPagesOffset_some_total {ρ : Type} :
    ∀ (pages : List (Page ρ)) (acc : List ρ) (reqs : Nat) (rows : List ρ) (n : Nat),
      runPagesOffset pages acc reqs = some (rows, n) → ∃ p ∈ pages, rows.length = p.total := by
  intro pages
  induction pages with
  | nil => intro acc reqs rows n h; simp [runPagesOffset] at h
  | cons p ps ih =>
    intro acc reqs rows n h
    rw [runPagesOffset] at h
    by_cases hc : (acc ++ p.items).length = p.total
    · rw [if_pos hc] at h
      simp only [Option.some.injEq, Prod.mk.injEq] at h
      exact ⟨p, List.mem_cons_self _ _, h.1 ▸ hc⟩
    · rw [if_neg hc] at h
      obtain ⟨q, hq, hlen⟩ := ih _ _ _ _ h
      exact ⟨q, List.mem_cons_of_mem _ hq, hlen⟩

theorem runPagesCursor_empty_page (p : Page ArtistRow) (ps : List (Page ArtistRow))
    (acc : List ArtistRow) (reqs : Nat) (hitems : p.items = [])
    (hne : acc.length ≠ p.total) :
    runPagesCursor (p :: ps) acc reqs = .indexError (reqs + 1) := by
  rw [runPagesCursor]
  simp only [hitems, List.append_nil]
  rw [if_neg hne]
  rfl

theorem runPagesOffset_chunk_aux {ρ : Type} :
    ∀ (n : Nat) (rest acc : List ρ) (reqs total : Nat), rest.length ≤ n → rest ≠ [] →
      acc.length + rest.length = total →
      runPagesOffset ((chunk50 rest).map (fun c => { items := c, total := total })) acc reqs
        = some (acc ++ rest, reqs + (rest.length + 49) / 50) := by
  intro n
  induction n with
  | zero =>
    intro rest acc reqs total hle hne _
    cases rest with
    | nil => exact absurd rfl hne
    | cons x xs => simp at hle
  | succ n ih =>
    intro rest acc reqs total hle hne htot
    obtain ⟨x, xs, rfl⟩ := List.exists_cons_of_ne_nil hne
    rw [chunk50]
    by_cases hlen : (x :: xs).length ≤ 50
    · have htake : (x :: xs).take 50 = x :: xs := List.take_of_length_le hlen
      have hdrop : (x :: xs).drop 50 = [] := List.drop_eq_nil_of_le hlen
      rw [htake, hdrop]
      have hnil : chunk50 ([] : List ρ) = [] := by rw [chunk50]
      rw [hnil, List.map_cons, List.map_nil, runPagesOffset]
      have hcond : (acc ++ (x :: xs)).length = total := by simpa using htot
      have hcount : ((x :: xs).length + 49) / 50 = 1 := by
        have h1 : 1 ≤ (x :: xs).length := by simp
        omega
      simp only [hcond, if_true, hcount]
    · push_neg at hlen
      have htakelen : ((x :: xs).take 50).length = 50 := by
        rw [List.length_take]
        omega
      have hdropne : (x :: xs).drop 50 ≠ [] := by
        intro hc
        have h2 := congrArg List.length hc
        rw [List.length_drop, List.length_nil] at h2
        omega
      rw [List.map_cons, runPagesOffset]
      have hcond : ¬ ((acc ++ (x :: xs).take 50).length = total) := by
        rw [List.length_append, htakelen]
        omega
      simp only [hcond, if_false]
      rw [ih ((x :: xs).drop 50) (acc ++ (x :: xs).take 50) (reqs + 1) total
        (by rw [List.length_drop]; omega) hdropne
        (by rw [List.length_append, htakelen, List.length_drop]; omega)]
      rw [List.append_assoc, List.take_append_drop]
      have harith : reqs + 1 + (((x :: xs).drop 50).length + 49) / 50
          = reqs + ((x :: xs).length + 49) / 50 := by
        rw [List.length_drop]
        omega
      rw [harith]

theorem runPagesOffset_consistent {ρ : Type} (items : List ρ) (h : items ≠ []) :
    runPagesOffset (consistentPages items) [] 0 = some (items, (items.length + 49) / 50) := by
  have h2 := runPagesOffset_chunk_aux items.length items [] 0 items.length (Nat.le_refl _) h (by simp)
  simpa [consistentPages] using h2

theorem runPagesCursor_chunk_aux :
    ∀ (n : Nat) (rest acc : List ArtistRow) (reqs total : Nat), rest.length ≤ n → rest ≠ [] →
      acc.length + rest.length = total →
      runPagesCursor ((chunk50 rest).map (fun c => { items := c, total := total })) acc reqs
        = .done (acc ++ rest) (reqs + (rest.length + 49) / 50) := by
  intro n
  induction n with
  | zero =>
    intro rest acc reqs total hle hne _
    cases rest with
    | nil => exact absurd rfl hne
    | cons x xs => simp at hle
  | succ n ih =>
    intro rest acc reqs total hle hne htot
    obtain ⟨x, xs, rfl⟩ := List.exists_cons_of_ne_nil hne
    rw [chunk50]
    by_cases hlen : (x :: xs).length ≤ 50
    · have htake : (x :: xs).take 50 = x :: xs := List.take_of_length_le hlen
      have hdrop : (x :: xs).drop 50 = [] := List.drop_eq_nil_of_le hlen
      rw [htake, hdrop]
      have hnil : chunk50 ([] : List ArtistRow) = [] := by rw [chunk50]
      rw [hnil, List.map_cons, List.map_nil, runPagesCursor]
      have hcond : (acc ++ (x :: xs)).length = total := by simpa using htot
      have hcount : ((x :: xs).length + 49) / 50 = 1 := by
        have h1 : 1 ≤ (x :: xs).length := by simp
        omega
      simp only [hcond, if_true, hcount]
    · push_neg at hlen
      have htakelen : ((x :: xs).take 50).length = 50 := by
        rw [List.length_take]
        omega
      have hdropne : (x :: xs).drop 50 ≠ [] := by
        intro hc
        have h2 := congrArg List.length hc
        rw [List.length_drop, List.length_nil] at h2
        omega
      rw [List.map_cons, runPagesCursor]
      have hcond : ¬ ((acc ++ (x :: xs).take 50).length = total) := by
        rw [List.length_append, htakelen]
        omega
      have htakene : (x :: xs).take 50 ≠ [] := by
        intro hc
        rw [hc] at htakelen
        simp at htakelen
      obtain ⟨y, hy⟩ := Option.isSome_iff_exists.mp
        (Option.isSome_iff_ne_none.mpr (fun hc => htakene (List.getLast?_eq_none_iff.mp hc)))
      simp only [hcond, if_false, hy]
      rw [ih ((x :: xs).drop 50) (acc ++ (x :: xs).take 50) (reqs + 1) total
        (by rw [List.length_drop]; omega) hdropne
        (by rw [List.length_append, htakelen, List.length_drop]; omega)]
      rw [List.append_assoc, List.take_append_drop]
      have harith : reqs + 1 + (((x :: xs).drop 50).length + 49) / 50
          = reqs + ((x :: xs).length + 49) / 50 := by
        rw [List.length_drop]
        omega
      rw [harith]

theorem runPagesCursor_consistent (items : List ArtistRow) (h : items ≠ []) :
    runPagesCursor (consistentPages items) [] 0 = .done items ((items.length + 49) / 50) := by
  have h2 := runPagesCursor_chunk_aux items.length items [] 0 items.length (Nat.le_refl _) h (by simp)
  simpa [consistentPages] using h2

end Spotify

namespace Spotify

theorem review_ok_eq (artist_id : String) (playlists : List PlaylistRow)
    (ledger : List LedgerRow) (albumsServed : List AlbumRow)
    (severalTracks : List String → List TrackRow) (confirm : String) (pid : String)
    (h : resolvePendingReview playlists = some pid) :
    review_artist_discography artist_id playlists ledger albumsServed severalTracks confirm
      = if confirm = "Y" then
          .ok { severalTracksCalls := albumBatches ledger albumsServed
              , uploads := uploadBatches ((dropDuplicatesBy trackKey
                  (filteredTracks artist_id ledger
                    ((albumBatches ledger albumsServed).map severalTracks).flatten)).map
                  TrackRow.track_uri)
              , ledgerWrite := some (updatedLedger ledger
                  (filteredTracks artist_id ledger
                    ((albumBatches ledger albumsServed).map severalTracks).flatten))
              , followed := some artist_id }
        else
          .ok { severalTracksCalls := albumBatches ledger albumsServed, uploads := []
              , ledgerWrite := none, followed := none } := by
  unfold review_artist_discography
  rw [h]

theorem review_error_iff (artist_id : String) (playlists : List PlaylistRow)
    (ledger : List LedgerRow) (albumsServed : List AlbumRow)
    (severalTracks : List String → List TrackRow) (confirm : String) :
    review_artist_discography artist_id playlists ledger albumsServed severalTracks confirm
        = .error .configError
      ↔ resolvePendingReview playlists = none := by
  constructor
  · intro h
    cases hres : resolvePendingReview playlists with
    | none => rfl
    | some pid =>
      rw [review_ok_eq artist_id playlists ledger albumsServed severalTracks confirm pid hres] at h
      by_cases hc : confirm = "Y"
      · rw [if_pos hc] at h; exact absurd h (by simp)
      · rw [if_neg hc] at h; exact absurd h (by simp)
  · intro h
    unfold review_artist_discography
    rw [h]

theorem length_filter_partition {α : Type} (p : α → Bool) :
    ∀ l : List α, (l.filter p).length + (l.filter (fun a => !(p a))).length = l.length := by
  intro l
  induction l with
  | nil => rfl
  | cons x xs ih => by_cases h : p x <;> simp [h, ih] <;> omega

theorem uploadBatches_len250 (uris : List String) (h : uris.length = 250) :
    (uploadBatches uris).map List.length = [100, 100, 50] := by
  rw [uploadBatches, h]
  rw [show (250 : Nat) / 100 + 1 = 3 from rfl, show List.range 3 = [0, 1, 2] from rfl]
  simp [List.length_take, List.length_drop, h]

theorem uploadBatches_le100 (uris : List String) (b : List String)
    (hb : b ∈ uploadBatches uris) : b.length ≤ 100 := by
  rw [uploadBatches] at hb
  obtain ⟨i, _, rfl⟩ := List.mem_map.mp hb
  exact List.length_take_le _ _

theorem albumBatches_25_5 (ledger : List LedgerRow) (albumsServed : List AlbumRow)
    (h25 : albumsServed.length = 25)
    (h5 : (albumsServed.filter
        (fun a => decide (a.album_id ∈ ledger.map LedgerRow.album_id))).length = 5) :
    albumBatches ledger albumsServed
      = [(filteredAlbums ledger albumsServed).map AlbumRow.album_id, []]
    ∧ (filteredAlbums ledger albumsServed).length = 20 := by
  have hfil : filteredAlbums ledger albumsServed
      = albumsServed.filter (fun a => !(decide (a.album_id ∈ ledger.map LedgerRow.album_id))) := by
    rw [filteredAlbums]
    apply List.filter_congr
    intro a _
    simp only [decide_not]
  have hpart := length_filter_partition
    (fun a => decide (a.album_id ∈ ledger.map LedgerRow.album_id)) albumsServed
  have h20 : (filteredAlbums ledger albumsServed).length = 20 := by
    rw [hfil]; omega
  refine ⟨?_, h20⟩
  have hids : ((filteredAlbums ledger albumsServed).map AlbumRow.album_id).length = 20 := by
    rw [List.length_map]; exact h20
  rw [albumBatches, h25]
  rw [show (25 : Nat) / 20 + 1 = 2 from rfl, show List.range 2 = [0, 1] from rfl]
  simp only [List.map_cons, List.map_nil]
  congr 1
  · rw [Nat.mul_zero, List.drop_zero]
    exact List.take_of_length_le (by omega)
  congr 1
  rw [show 20 * 1 = 20 from rfl, List.drop_eq_nil_of_le (by omega)]
  rfl

end Spotify

namespace Spotify

/-- Claim C1, evaluation of the code at the failing input.  With the stored
credential satisfying expiration_time - now = 500 (at most 600), the
decorator fires the refresh POST but discards its returned token and
expiry, so `get_user_id` proceeds with the OLD access token (the claim says
the request proceeds with the newly stored token and updated expiry), and
`get_followed_artists` fires TWO refresh POSTs (decorator plus the inline
repeat of lines 103-104), not exactly one.  With
expiration_time - now = 700 no refresh fires, as the claim says. -/
theorem c1_stale_token_evaluation :
    get_user_id_trace
        { access_token := "oldToken", expiration_time := 1100, refresh_token := "rt" } 600
      = [Request.refresh, Request.api "oldToken"]
    ∧ get_followed_artists_trace
        { access_token := "oldToken", expiration_time := 1100, refresh_token := "rt" } 600
        [{ items := [{ artist := "a", artist_id := "a1", genres := "" }], total := 1 }]
      = [Request.refresh, Request.refresh, Request.api "oldToken"]
    ∧ get_user_id_trace
        { access_token := "oldToken", expiration_time := 1300, refresh_token := "rt" } 600
      = [Request.api "oldToken"] :=
  ⟨by decide, by decide, by decide⟩

/-- Claim C2, counterexample.  Served 1000 successive zero-item pages each
reporting total = 1, the offset-style playlists loop consumes all 1000
responses (issuing 1000 requests) and is still requesting the next page:
it neither terminates nor fails with any error -- the claimed DataError
does not exist in the code, which just advances `offset` and loops. -/
theorem c2_pagination_counterexample :
    get_current_user_playlists
        (List.replicate 1000 { items := [], total := 1 }) = none :=
  runPagesOffset_replicate_empty 1 1000 [] 0 (by decide)

/-- Claim C2, amended.  Every loop stops only when the accumulated row
count equals a response's reported total (first conjunct).  On a zero-item
page with count still short of the total, the offset-style loops raise
nothing and issue the next request indefinitely (second conjunct, for any
number of empty responses), while the cursor-style loop of
`get_followed_artists` aborts with the uncaught IndexError of `data[-1]`
(third conjunct) -- not with a DataError. -/
theorem c2_pagination_amended :
    (∀ {ρ : Type} (pages : List (Page ρ)) (acc rows : List ρ) (reqs n : Nat),
        runPagesOffset pages acc reqs = some (rows, n) → ∃ p ∈ pages, rows.length = p.total)
    ∧ (∀ (total n : Nat), total ≠ 0 →
        get_current_user_playlists (List.replicate n { items := [], total := total }) = none)
    ∧ (∀ (p : Page ArtistRow) (ps : List (Page ArtistRow)) (acc : List ArtistRow) (reqs : Nat),
        p.items = [] → acc.length ≠ p.total →
        runPagesCursor (p :: ps) acc reqs = .indexError (reqs + 1)) := by
  refine ⟨?_, ?_, runPagesCursor_empty_page⟩
  · intro ρ pages acc rows reqs n h
    exact runPagesOffset_some_total pages acc reqs rows n h
  · intro total n h
    exact runPagesOffset_replicate_empty total n [] 0 (by simp; omega)

/-- Claim C2 witness: the amended statement applied at concrete inputs --
a successful singleton run reaches a page whose total it matched, 7 empty
pages with total 3 leave the loop still requesting, and an empty first
page with total 3 crashes the cursor loop after 1 request. -/
theorem c2_pagination_witness :
    (runPagesOffset [({ items := [{ playlist_id := "p", playlist_name := "n" }], total := 1 } :
          Page PlaylistRow)] [] 0
        = some ([{ playlist_id := "p", playlist_name := "n" }], 1)
      ∧ ∃ p ∈ [({ items := [{ playlist_id := "p", playlist_name := "n" }], total := 1 } :
          Page PlaylistRow)],
          [({ playlist_id := "p", playlist_name := "n" } : PlaylistRow)].length = p.total)
    ∧ ((3 : Nat) ≠ 0
      ∧ get_current_user_playlists (List.replicate 7 { items := [], total := 3 }) = none)
    ∧ (({ items := [], total := 3 } : Page ArtistRow).items = []
      ∧ ([] : List ArtistRow).length ≠ ({ items := [], total := 3 } : Page ArtistRow).total
      ∧ runPagesCursor [{ items := [], total := 3 }] [] 0 = .indexError 1) :=
  ⟨⟨by decide, c2_pagination_amended.1 _ [] _ 0 1 (by decide)⟩,
   ⟨by decide, c2_pagination_amended.2.1 3 7 (by decide)⟩,
   ⟨by decide, by decide, c2_pagination_amended.2.2 _ [] [] 0 (by decide) (by decide)⟩⟩

/-- Claim C3: when the confirmation prompt receives anything other than
exactly `Y`, the workflow returns early -- no `add_items_to_playlist`
call, no ledger rewrite, no `follow_artist` call. -/
theorem c3_abort_no_side_effects (artist_id : String) (playlists : List PlaylistRow)
    (ledger : List LedgerRow) (albumsServed : List AlbumRow)
    (severalTracks : List String → List TrackRow) (confirm : String) (eff : Effects)
    (hconf : confirm ≠ "Y")
    (hrun : review_artist_discography artist_id playlists ledger albumsServed severalTracks
        confirm = .ok eff) :
    eff.uploads = [] ∧ eff.ledgerWrite = none ∧ eff.followed = none := by
  cases hres : resolvePendingReview playlists with
  | none =>
    unfold review_artist_discography at hrun
    rw [hres] at hrun
    exact absurd hrun (by simp)
  | some pid =>
    rw [review_ok_eq artist_id playlists ledger albumsServed severalTracks confirm pid hres,
      if_neg hconf] at hrun
    cases Except.ok.inj hrun
    exact ⟨rfl, rfl, rfl⟩

/-- Claim C3 witness: a concrete run answering `N` at the prompt. -/
theorem c3_abort_witness :
    ("N" : String) ≠ "Y"
    ∧ review_artist_discography "A" [{ playlist_id := "p1", playlist_name := "Pending Review" }]
        [] [] (fun _ => []) "N" = .ok (Effects.mk [[]] [] none none)
    ∧ ((Effects.mk [[]] [] none none).uploads = []
      ∧ (Effects.mk [[]] [] none none).ledgerWrite = none
      ∧ (Effects.mk [[]] [] none none).followed = none) :=
  ⟨by decide, rfl,
    c3_abort_no_side_effects "A" [{ playlist_id := "p1", playlist_name := "Pending Review" }]
      [] [] (fun _ => []) "N" _ (by decide) rfl⟩

/-- Claim C5: the line-485 dedup keys on the composite
(track_name, track_artist_ids, track_length) -- `trackKey`, whose value is
the triple of those three fields, not the name alone -- and equals the
spec's keep-first-occurrence-per-key function `dedupFirstSpec`: for each
key exactly the first occurrence is retained and every later track with
the same key is discarded; when all keys are pairwise distinct (tracks
differing in any of the three components) every track is retained. -/
theorem c5_dedup_key :
    (∀ l : List TrackRow, dropDuplicatesBy trackKey l = dedupFirstSpec trackKey l)
    ∧ (∀ t : TrackRow, trackKey t = (t.track_name, t.track_artist_ids, t.track_length))
    ∧ (∀ l : List TrackRow, (l.map trackKey).Nodup → dropDuplicatesBy trackKey l = l) :=
  ⟨fun l => dropDuplicatesBy_eq_spec trackKey l, fun _ => rfl,
   fun l h => dropDuplicatesBy_of_nodup trackKey l h⟩

/-- Claim C5 witness: the spec section-8 example -- three tracks with
pairwise distinct keys (two share the duration but differ in name) are all
retained. -/
theorem c5_dedup_witness :
    (specTracks3.map trackKey).Nodup
    ∧ dropDuplicatesBy trackKey specTracks3 = specTracks3 :=
  ⟨by decide, c5_dedup_key.2.2 specTracks3 (by decide)⟩

/-- Claim C7: the workflow errors (the uncaught line-462 IndexError, the
spec's ConfigError) exactly when no playlist is named `Pending Review`,
and a successful resolution returns the id of a playlist of the user whose
name is exactly `Pending Review`. -/
theorem c7_pending_review_resolution (artist_id : String) (playlists : List PlaylistRow)
    (ledger : List LedgerRow) (albumsServed : List AlbumRow)
    (severalTracks : List String → List TrackRow) (confirm : String) :
    (review_artist_discography artist_id playlists ledger albumsServed severalTracks confirm
        = .error .configError
      ↔ ∀ p ∈ playlists, p.playlist_name ≠ "Pending Review")
    ∧ (∀ pid, resolvePendingReview playlists = some pid →
        ∃ p ∈ playlists, p.playlist_name = "Pending Review" ∧ p.playlist_id = pid) := by
  constructor
  · rw [review_error_iff, resolvePendingReview]
    simp [List.filter_eq_nil_iff]
  · intro pid h
    rw [resolvePendingReview] at h
    cases hfil : playlists.filter (fun p => decide (p.playlist_name = "Pending Review")) with
    | nil => rw [hfil] at h; simp at h
    | cons q rest =>
      rw [hfil] at h
      simp at h
      have hq : q ∈ playlists.filter (fun p => decide (p.playlist_name = "Pending Review")) :=
        hfil ▸ List.mem_cons_self q rest
      have h2 := List.mem_filter.mp hq
      exact ⟨q, h2.1, by simpa using h2.2, h⟩

/-- Claim C7 witness: a playlist list without the name errors; one with it
resolves to that playlist's id. -/
theorem c7_pending_review_witness :
    (review_artist_discography "A" [{ playlist_id := "p9", playlist_name := "other" }]
        [] [] (fun _ => []) "Y" = .error .configError
      ∧ ∀ p ∈ [({ playlist_id := "p9", playlist_name := "other" } : PlaylistRow)],
          p.playlist_name ≠ "Pending Review")
    ∧ (resolvePendingReview [{ playlist_id := "p1", playlist_name := "Pending Review" }]
        = some "p1"
      ∧ ∃ p ∈ [({ playlist_id := "p1", playlist_name := "Pending Review" } : PlaylistRow)],
          p.playlist_name = "Pending Review" ∧ p.playlist_id = "p1") :=
  ⟨⟨(c7_pending_review_resolution "A" [{ playlist_id := "p9", playlist_name := "other" }]
      [] [] (fun _ => []) "Y").1.mpr (by decide), by decide⟩,
   ⟨by decide,
    (c7_pending_review_resolution "A" [{ playlist_id := "p1", playlist_name := "Pending Review" }]
      [] [] (fun _ => []) "Y").2 "p1" (by decide)⟩⟩

/-- Claim C10: the step-5 relevance filter keeps a track exactly when
`artist_id` occurs as a contiguous substring of the joined
`track_artist_ids` string (first conjunct, Python's `in`), and the
concrete track whose artists are `ab1` and `c` -- neither equal to `b1` --
is kept for artist id `b1`, because `b1` is a substring of the join
`ab1|c`. -/
theorem c10_substring_filter :
    (∀ (aid : String) (l : List TrackRow) (t : TrackRow),
        t ∈ relevantTracks aid l ↔ t ∈ l ∧ strIn aid t.track_artist_ids = true)
    ∧ trackOverlap ∈ relevantTracks "b1" [trackOverlap]
    ∧ (∀ a ∈ rawArtistsOverlap, a.id ≠ "b1")
    ∧ trackOverlap.track_artist_ids = joinedArtistIds rawArtistsOverlap := by
  refine ⟨?_, by decide, by decide, rfl⟩
  intro aid l t
  simp [relevantTracks, List.mem_filter]

/-- Claim C10 witness: the filter characterisation applied at the concrete
overlap track. -/
theorem c10_substring_witness :
    trackOverlap ∈ [trackOverlap] ∧ strIn "b1" trackOverlap.track_artist_ids = true
    ∧ trackOverlap ∈ relevantTracks "b1" [trackOverlap] :=
  ⟨by decide, by decide,
   (c10_substring_filter.1 "b1" [trackOverlap] trackOverlap).mpr ⟨by decide, by decide⟩⟩

end Spotify

namespace Spotify

/-- Claim C4: in a confirmed run, the ledger written back (line 502) is
the loaded ledger concatenated with the (track-id, album-id) pair of every
track that survived the step-5 filters -- `filteredTracks`, BEFORE the
line-485 dedup -- then deduplicated on the whole (pair) row: the persisted
ledger has no duplicate pair and contains a pair exactly when it was in
the loaded ledger or belongs to a filtered track. -/
theorem c4_ledger_merge (artist_id : String) (playlists : List PlaylistRow)
    (ledger : List LedgerRow) (albumsServed : List AlbumRow)
    (severalTracks : List String → List TrackRow) (pid : String) (eff : Effects)
    (hres : resolvePendingReview playlists = some pid)
    (hrun : review_artist_discography artist_id playlists ledger albumsServed severalTracks "Y"
        = .ok eff) :
    ∃ L, eff.ledgerWrite = some L
      ∧ L = updatedLedger ledger (filteredTracks artist_id ledger
            ((albumBatches ledger albumsServed).map severalTracks).flatten)
      ∧ L.Nodup
      ∧ ∀ pr : LedgerRow, pr ∈ L ↔ pr ∈ ledger
          ∨ ∃ t ∈ filteredTracks artist_id ledger
              ((albumBatches ledger albumsServed).map severalTracks).flatten,
              pr = LedgerRow.mk t.track_id t.album_id := by
  rw [review_ok_eq artist_id playlists ledger albumsServed severalTracks "Y" pid hres,
    if_pos rfl] at hrun
  cases Except.ok.inj hrun
  refine ⟨_, rfl, rfl, ?_, ?_⟩
  · have h1 := dedupScan_map_key_nodup (fun r : LedgerRow => r) []
      (ledger ++ (filteredTracks artist_id ledger
        ((albumBatches ledger albumsServed).map severalTracks).flatten).map
        (fun t => { track_id := t.track_id, album_id := t.album_id }))
    simpa [updatedLedger, dropDuplicatesRows] using h1
  · intro pr
    have h2 := dedupScan_id_mem ([] : List LedgerRow)
      (ledger ++ (filteredTracks artist_id ledger
        ((albumBatches ledger albumsServed).map severalTracks).flatten).map
        (fun t => { track_id := t.track_id, album_id := t.album_id })) pr
    rw [updatedLedger, dropDuplicatesRows, h2]
    simp [List.mem_append, List.mem_map, eq_comm]

/-- Claim C4 witness: a concrete confirmed run with empty ledger and no
albums writes back the empty deduplicated ledger. -/
theorem c4_ledger_witness :
    resolvePendingReview [{ playlist_id := "p1", playlist_name := "Pending Review" }] = some "p1"
    ∧ review_artist_discography "A" [{ playlist_id := "p1", playlist_name := "Pending Review" }]
        [] [] (fun _ => []) "Y" = .ok (Effects.mk [[]] [[]] (some []) (some "A"))
    ∧ ∃ L, (Effects.mk [[]] [[]] (some []) (some "A")).ledgerWrite = some L
        ∧ L = updatedLedger []
            (filteredTracks "A" [] ((albumBatches [] []).map (fun _ => [])).flatten)
        ∧ L.Nodup
        ∧ ∀ pr : LedgerRow, pr ∈ L ↔ pr ∈ ([] : List LedgerRow)
            ∨ ∃ t ∈ filteredTracks "A" []
                ((albumBatches [] []).map (fun _ => ([] : List TrackRow))).flatten,
                pr = LedgerRow.mk t.track_id t.album_id :=
  ⟨rfl, rfl,
   c4_ledger_merge "A" [{ playlist_id := "p1", playlist_name := "Pending Review" }]
     [] [] (fun _ => []) "p1" _ rfl rfl⟩

/-- Claim C6: with 25 served albums of which exactly 5 have their id in
the ledger, the workflow issues exactly 2 `get_several_albums_tracks`
batches (the loop bound is the PRE-filter count 25, so the second batch is
empty), each carrying at most 20 album ids, and together the requested ids
are exactly the ids of the 20 albums not in the ledger. -/
theorem c6_album_batches (artist_id : String) (playlists : List PlaylistRow)
    (ledger : List LedgerRow) (albumsServed : List AlbumRow)
    (severalTracks : List String → List TrackRow) (confirm : String) (pid : String)
    (hres : resolvePendingReview playlists = some pid)
    (h25 : albumsServed.length = 25)
    (h5 : (albumsServed.filter
        (fun a => decide (a.album_id ∈ ledger.map LedgerRow.album_id))).length = 5) :
    ∃ eff, review_artist_discography artist_id playlists ledger albumsServed severalTracks confirm
        = .ok eff
      ∧ eff.severalTracksCalls.length = 2
      ∧ (∀ b ∈ eff.severalTracksCalls, b.length ≤ 20)
      ∧ eff.severalTracksCalls.flatten
          = (filteredAlbums ledger albumsServed).map AlbumRow.album_id
      ∧ (filteredAlbums ledger albumsServed).length = 20
      ∧ (∀ a : AlbumRow, a ∈ filteredAlbums ledger albumsServed
          ↔ a ∈ albumsServed ∧ a.album_id ∉ ledger.map LedgerRow.album_id) := by
  obtain ⟨hb, h20⟩ := albumBatches_25_5 ledger albumsServed h25 h5
  have hmem : ∀ a : AlbumRow, a ∈ filteredAlbums ledger albumsServed
      ↔ a ∈ albumsServed ∧ a.album_id ∉ ledger.map LedgerRow.album_id := by
    intro a
    simp [filteredAlbums, List.mem_filter]
  have hprops : (albumBatches ledger albumsServed).length = 2
      ∧ (∀ b ∈ albumBatches ledger albumsServed, b.length ≤ 20)
      ∧ (albumBatches ledger albumsServed).flatten
          = (filteredAlbums ledger albumsServed).map AlbumRow.album_id := by
    rw [hb]
    refine ⟨rfl, ?_, by simp⟩
    intro b hbmem
    rcases List.mem_cons.mp hbmem with rfl | h1
    · rw [List.length_map]
      omega
    · rcases List.mem_cons.mp h1 with rfl | h2
      · simp
      · simp at h2
  rw [review_ok_eq artist_id playlists ledger albumsServed severalTracks confirm pid hres]
  by_cases hc : confirm = "Y"
  · rw [if_pos hc]
    exact ⟨_, rfl, hprops.1, hprops.2.1, hprops.2.2, h20, hmem⟩
  · rw [if_neg hc]
    exact ⟨_, rfl, hprops.1, hprops.2.1, hprops.2.2, h20, hmem⟩

/-- Claim C6 witness: the theorem applied to the concrete 25-album
discography with the first 5 album ids already in the ledger. -/
theorem c6_album_witness :
    resolvePendingReview [{ playlist_id := "p1", playlist_name := "Pending Review" }] = some "p1"
    ∧ albums25.length = 25
    ∧ (albums25.filter
        (fun a => decide (a.album_id ∈ ledger5.map LedgerRow.album_id))).length = 5
    ∧ ∃ eff, review_artist_discography "A"
          [{ playlist_id := "p1", playlist_name := "Pending Review" }]
          ledger5 albums25 (fun _ => []) "N" = .ok eff
        ∧ eff.severalTracksCalls.length = 2
        ∧ (∀ b ∈ eff.severalTracksCalls, b.length ≤ 20)
        ∧ eff.severalTracksCalls.flatten = (filteredAlbums ledger5 albums25).map AlbumRow.album_id
        ∧ (filteredAlbums ledger5 albums25).length = 20
        ∧ (∀ a : AlbumRow, a ∈ filteredAlbums ledger5 albums25
            ↔ a ∈ albums25 ∧ a.album_id ∉ ledger5.map LedgerRow.album_id) :=
  ⟨rfl, by decide, by decide,
   c6_album_batches "A" [{ playlist_id := "p1", playlist_name := "Pending Review" }]
     ledger5 albums25 (fun _ => []) "N" "p1" rfl (by decide) (by decide)⟩

/-- Claim C8: against a consistent server -- the response pages are the
successive 50-chunks of the item list and every response reports
total = number of items served -- holding at least one item, every
list-returning paginated operation returns exactly total rows and issues
exactly (total + 49) / 50 = ceil(total / pageSize) page requests (so never
more than that bound). -/
theorem c8_pagination_totals (pl : List PlaylistRow) (pt : List PlaylistTrackRow)
    (al : List AlbumRow) (tr : List TrackRow) (ar : List ArtistRow)
    (h1 : pl ≠ []) (h2 : pt ≠ []) (h3 : al ≠ []) (h4 : tr ≠ []) (h5 : ar ≠ []) :
    get_current_user_playlists (consistentPages pl) = some (pl, (pl.length + 49) / 50)
    ∧ get_playlist_items (consistentPages pt) = some (pt, (pt.length + 49) / 50)
    ∧ get_artists_albums (consistentPages al) = some (al, (al.length + 49) / 50)
    ∧ get_albums_tracks (consistentPages tr) = some (tr, (tr.length + 49) / 50)
    ∧ get_followed_artists (consistentPages ar) = .done ar ((ar.length + 49) / 50) :=
  ⟨runPagesOffset_consistent pl h1, runPagesOffset_consistent pt h2,
   runPagesOffset_consistent al h3, runPagesOffset_consistent tr h4,
   runPagesCursor_consistent ar h5⟩

/-- Claim C8 witness: single-item resources take one request each. -/
theorem c8_pagination_witness :
    ([PlaylistRow.mk "p" "n"] ≠ ([] : List PlaylistRow)
      ∧ [PlaylistTrackRow.mk "p" "t" "n" "u" "ai" "an" "aln" "alu" "d"]
          ≠ ([] : List PlaylistTrackRow)
      ∧ [AlbumRow.mk "a" "n" "al" "album" "2020" true] ≠ ([] : List AlbumRow)
      ∧ [TrackRow.mk "al" "n" "t" "u" "ai" "an" 1 1 true 9] ≠ ([] : List TrackRow)
      ∧ [ArtistRow.mk "a" "a1" "g"] ≠ ([] : List ArtistRow))
    ∧ get_current_user_playlists (consistentPages [PlaylistRow.mk "p" "n"])
        = some ([PlaylistRow.mk "p" "n"], 1)
    ∧ get_followed_artists (consistentPages [ArtistRow.mk "a" "a1" "g"])
        = .done [ArtistRow.mk "a" "a1" "g"] 1 :=
  ⟨⟨by decide, by decide, by decide, by decide, by decide⟩,
   (c8_pagination_totals [PlaylistRow.mk "p" "n"]
      [PlaylistTrackRow.mk "p" "t" "n" "u" "ai" "an" "aln" "alu" "d"]
      [AlbumRow.mk "a" "n" "al" "album" "2020" true]
      [TrackRow.mk "al" "n" "t" "u" "ai" "an" 1 1 true 9]
      [ArtistRow.mk "a" "a1" "g"]
      (by decide) (by decide) (by decide) (by decide) (by decide)).1,
   (c8_pagination_totals [PlaylistRow.mk "p" "n"]
      [PlaylistTrackRow.mk "p" "t" "n" "u" "ai" "an" "aln" "alu" "d"]
      [AlbumRow.mk "a" "n" "al" "album" "2020" true]
      [TrackRow.mk "al" "n" "t" "u" "ai" "an" 1 1 true 9]
      [ArtistRow.mk "a" "a1" "g"]
      (by decide) (by decide) (by decide) (by decide) (by decide)).2.2.2.2⟩

/-- Claim C9: in a confirmed run whose deduplicated candidate list has
exactly 250 tracks, the upload loop calls `add_items_to_playlist` exactly
3 times, with batches of 100, 100 and 50 track uris, each of size at
most 100. -/
theorem c9_upload_batches (artist_id : String) (playlists : List PlaylistRow)
    (ledger : List LedgerRow) (albumsServed : List AlbumRow)
    (severalTracks : List String → List TrackRow) (pid : String)
    (hres : resolvePendingReview playlists = some pid)
    (h250 : (dropDuplicatesBy trackKey (filteredTracks artist_id ledger
        ((albumBatches ledger albumsServed).map severalTracks).flatten)).length = 250) :
    ∃ eff, review_artist_discography artist_id playlists ledger albumsServed severalTracks "Y"
        = .ok eff
      ∧ eff.uploads.length = 3
      ∧ eff.uploads.map List.length = [100, 100, 50]
      ∧ ∀ b ∈ eff.uploads, b.length ≤ 100 := by
  rw [review_ok_eq artist_id playlists ledger albumsServed severalTracks "Y" pid hres,
    if_pos rfl]
  have hlen : ((dropDuplicatesBy trackKey (filteredTracks artist_id ledger
      ((albumBatches ledger albumsServed).map severalTracks).flatten)).map
      TrackRow.track_uri).length = 250 := by
    rw [List.length_map]
    exact h250
  have hmap := uploadBatches_len250 _ hlen
  refine ⟨_, rfl, ?_, hmap, fun b hb => uploadBatches_le100 _ b hb⟩
  have h3 := congrArg List.length hmap
  simpa using h3

/-- Claim C9 witness: the theorem applied to a concrete run serving 250
tracks with pairwise distinct durations (all survive filtering and
dedup). -/
theorem tracks250_filtered :
    filteredTracks "A" [] ((albumBatches [] album1).map (fun _ => tracks250)).flatten
      = tracks250 := by
  have h1 : ((albumBatches [] album1).map (fun _ => tracks250)).flatten = tracks250 := by
    rw [show albumBatches [] album1 = [["al0"]] from rfl]
    simp
  rw [h1, filteredTracks, relevantTracks, unreviewedTracks]
  have h2 : tracks250.filter (fun t => strIn "A" t.track_artist_ids) = tracks250 := by
    apply List.filter_eq_self.mpr
    intro t ht
    obtain ⟨i, _, rfl⟩ := List.mem_map.mp ht
    rfl
  rw [h2]
  apply List.filter_eq_self.mpr
  intro t _
  simp

theorem tracks250_dedup_len :
    (dropDuplicatesBy trackKey (filteredTracks "A" []
      ((albumBatches [] album1).map (fun _ => tracks250)).flatten)).length = 250 := by
  rw [tracks250_filtered, dropDuplicatesBy_of_nodup]
  · simp [tracks250]
  · rw [tracks250, List.map_map]
    refine List.Nodup.map ?_ (List.nodup_range 250)
    intro a b hab
    simpa [trackKey] using hab

/-- Claim C9 witness: the theorem applied to a concrete run serving 250
tracks with pairwise distinct durations (all survive filtering and
dedup). -/
theorem c9_upload_witness :
    resolvePendingReview [{ playlist_id := "p1", playlist_name := "Pending Review" }] = some "p1"
    ∧ (dropDuplicatesBy trackKey (filteredTracks "A" []
        ((albumBatches [] album1).map (fun _ => tracks250)).flatten)).length = 250
    ∧ ∃ eff, review_artist_discography "A"
          [{ playlist_id := "p1", playlist_name := "Pending Review" }]
          [] album1 (fun _ => tracks250) "Y" = .ok eff
        ∧ eff.uploads.length = 3
        ∧ eff.uploads.map List.length = [100, 100, 50]
        ∧ ∀ b ∈ eff.uploads, b.length ≤ 100 :=
  ⟨rfl, tracks250_dedup_len,
   c9_upload_batches "A" [{ playlist_id := "p1", playlist_name := "Pending Review" }]
     [] album1 (fun _ => tracks250) "p1" rfl tracks250_dedup_len⟩

end Spotify
